import Mathlib

set_option linter.unnecessarySeqFocus false

/-!
Verification of the wizard-orchestration core of the Azure Functions
extension against its natural-language specification.

The TypeScript sources are shallowly embedded: pure computations become
Lean functions, effectful sequences become explicit action lists or
state-passing functions, and external collaborators (the CLI feed, the
durable key-value store, the file system) become explicit parameters.
-/

/-! ## Common data model -/

/-- An application setting: a name/value pair, as in the
`WebSiteManagementModels.NameValuePair` objects built by
`createFunctionAppSettings`. -/
abbrev NameValuePair := String × String

/-- The Azure Functions runtime generation (`ProjectRuntime` enum from
`constants.ts`; only `v1` and `v2` exist at this revision). -/
inductive ProjectRuntime
| v1
| v2
deriving DecidableEq, Repr

/-- JavaScript truthiness of a `string | undefined` value: `undefined`
and the empty string are falsy, every other string is truthy. -/
def jsTruthyString : Option String → Bool
| some s => !(s = "")
| none => false

/-! ## App-Settings Builder (`createFunctionAppSettings`, FunctionAppProvider file)

The builder receives the settings map fetched from the external CLI feed
(`getCliFeedAppSettings`, an external collaborator) as an explicit list of
name/value pairs, in the iteration order of `Object.keys`. -/

/-- The fields of `IAppSettingsContext` read by `createFunctionAppSettings`. -/
structure AppSettingsContext where
  storageConnectionString : String
  fileShareName : String
  os : String
  runtime : Option String
deriving DecidableEq, Repr

/-- Shallow embedding of `createFunctionAppSettings` (FunctionAppProvider
file, lines 193-247): pushes the CLI-feed settings, then the storage
connection string, then conditionally the v1 dashboard key, the two
Windows file-share keys, the worker-runtime key, and the
run-from-package flag. -/
def createFunctionAppSettings (cliFeedAppSettings : List NameValuePair)
    (context : AppSettingsContext) (projectRuntime : ProjectRuntime)
    (projectLanguage : Option String) : List NameValuePair :=
  cliFeedAppSettings
  ++ [("AzureWebJobsStorage", context.storageConnectionString)]
  ++ (if projectRuntime = ProjectRuntime.v1 then
        [("AzureWebJobsDashboard", context.storageConnectionString)]
      else [])
  ++ (if context.os = "windows" then
        [("WEBSITE_CONTENTAZUREFILECONNECTIONSTRING", context.storageConnectionString),
         ("WEBSITE_CONTENTSHARE", context.fileShareName)]
      else [])
  ++ (if jsTruthyString context.runtime then
        [("FUNCTIONS_WORKER_RUNTIME", context.runtime.getD "")]
      else [])
  ++ (if context.os ≠ "linux" ∧
         ¬(projectLanguage = some "C#Script" ∧ projectRuntime = ProjectRuntime.v1) then
        [("WEBSITE_RUN_FROM_PACKAGE", "1")]
      else [])

/-- The six setting names the builder itself may push after the CLI-feed
settings, in push order. -/
def fixedSettingNames : List String :=
  ["AzureWebJobsStorage", "AzureWebJobsDashboard",
   "WEBSITE_CONTENTAZUREFILECONNECTIONSTRING", "WEBSITE_CONTENTSHARE",
   "FUNCTIONS_WORKER_RUNTIME", "WEBSITE_RUN_FROM_PACKAGE"]

/-- The names of the entries the builder appends after the CLI-feed
settings (the suffix of the output past the feed entries). -/
def builderTailNames (context : AppSettingsContext)
    (projectRuntime : ProjectRuntime) (projectLanguage : Option String) :
    List String :=
  (createFunctionAppSettings [] context projectRuntime projectLanguage).map Prod.fst

theorem createFunctionAppSettings_names_eq (cliFeedAppSettings : List NameValuePair)
    (context : AppSettingsContext) (projectRuntime : ProjectRuntime)
    (projectLanguage : Option String) :
    (createFunctionAppSettings cliFeedAppSettings context projectRuntime projectLanguage).map Prod.fst
      = cliFeedAppSettings.map Prod.fst
        ++ builderTailNames context projectRuntime projectLanguage := by
  simp [createFunctionAppSettings, builderTailNames]

theorem builderTailNames_sublist (context : AppSettingsContext)
    (projectRuntime : ProjectRuntime) (projectLanguage : Option String) :
    (builderTailNames context projectRuntime projectLanguage).Sublist fixedSettingNames := by
  unfold builderTailNames createFunctionAppSettings fixedSettingNames
  split_ifs <;> simp_all <;> decide

theorem builderTailNames_nodup (context : AppSettingsContext)
    (projectRuntime : ProjectRuntime) (projectLanguage : Option String) :
    (builderTailNames context projectRuntime projectLanguage).Nodup :=
  List.Nodup.sublist (builderTailNames_sublist context projectRuntime projectLanguage)
    (by decide)

theorem builderTailNames_mem_fixed (context : AppSettingsContext)
    (projectRuntime : ProjectRuntime) (projectLanguage : Option String)
    (k : String) (hk : k ∈ builderTailNames context projectRuntime projectLanguage) :
    k ∈ fixedSettingNames :=
  (builderTailNames_sublist context projectRuntime projectLanguage).mem hk

/-- Concrete context used by counterexamples and witnesses for the
App-Settings Builder claims. -/
def sampleWindowsContext : AppSettingsContext :=
  { storageConnectionString := "DefaultEndpointsProtocol=https",
    fileShareName := "myshare",
    os := "windows",
    runtime := some "node" }

/-- Concrete Linux context used by counterexamples for the App-Settings
Builder claims. -/
def sampleLinuxContext : AppSettingsContext :=
  { storageConnectionString := "DefaultEndpointsProtocol=https",
    fileShareName := "myshare",
    os := "linux",
    runtime := none }

/-- C4 counterexample: a CLI-feed map that itself contains the key
`AzureWebJobsStorage` makes the builder emit that name twice, so the
claim quantified over every feed map fails. -/
theorem createFunctionAppSettings_dup_counterexample :
    ¬ ((createFunctionAppSettings [("AzureWebJobsStorage", "fromFeed")]
          sampleWindowsContext ProjectRuntime.v2 none).map Prod.fst).Nodup := by
  decide

/-- C4 (amended): if the CLI-feed keys are pairwise distinct and avoid the
six fixed setting names the builder can push, the produced list has no two
entries with the same name. -/
theorem createFunctionAppSettings_nodup (cliFeedAppSettings : List NameValuePair)
    (context : AppSettingsContext) (projectRuntime : ProjectRuntime)
    (projectLanguage : Option String)
    (hfeed : (cliFeedAppSettings.map Prod.fst).Nodup)
    (hdisj : ∀ k ∈ cliFeedAppSettings.map Prod.fst, k ∉ fixedSettingNames) :
    ((createFunctionAppSettings cliFeedAppSettings context projectRuntime
        projectLanguage).map Prod.fst).Nodup := by
  rw [createFunctionAppSettings_names_eq]
  refine List.Nodup.append hfeed (builderTailNames_nodup context projectRuntime projectLanguage) ?_
  intro k hk1 hk2
  exact hdisj k hk1 (builderTailNames_mem_fixed context projectRuntime projectLanguage k hk2)

/-- Witness for the amended C4 theorem at a concrete feed and context. -/
theorem createFunctionAppSettings_nodup_witness :
    ((createFunctionAppSettings [("FUNCTIONS_EXTENSION_VERSION", "~2")]
        sampleWindowsContext ProjectRuntime.v2 none).map Prod.fst).Nodup :=
  createFunctionAppSettings_nodup [("FUNCTIONS_EXTENSION_VERSION", "~2")]
    sampleWindowsContext ProjectRuntime.v2 none (by decide) (by decide)

theorem mem_if_nil {α : Type} {p : Prop} [Decidable p] (a : α) (l : List α) :
    (a ∈ (if p then l else [])) ↔ p ∧ a ∈ l := by
  split_ifs <;> simp_all

/-- Closed form of the names the builder appends after the feed entries. -/
theorem builderTailNames_eq (context : AppSettingsContext)
    (projectRuntime : ProjectRuntime) (projectLanguage : Option String) :
    builderTailNames context projectRuntime projectLanguage =
      ["AzureWebJobsStorage"]
      ++ (if projectRuntime = ProjectRuntime.v1 then ["AzureWebJobsDashboard"] else [])
      ++ (if context.os = "windows" then
            ["WEBSITE_CONTENTAZUREFILECONNECTIONSTRING", "WEBSITE_CONTENTSHARE"]
          else [])
      ++ (if jsTruthyString context.runtime = true then ["FUNCTIONS_WORKER_RUNTIME"] else [])
      ++ (if context.os ≠ "linux" ∧
             ¬(projectLanguage = some "C#Script" ∧ projectRuntime = ProjectRuntime.v1) then
            ["WEBSITE_RUN_FROM_PACKAGE"]
          else []) := by
  unfold builderTailNames createFunctionAppSettings
  split_ifs <;> simp_all

/-- C5 counterexample: a CLI-feed map that itself contains
`WEBSITE_CONTENTSHARE` makes that name appear in the output on a Linux
context, so the if-and-only-if quantified over every input fails. -/
theorem windowsSettings_iff_counterexample :
    "WEBSITE_CONTENTSHARE" ∈ (createFunctionAppSettings
        [("WEBSITE_CONTENTSHARE", "fromFeed")] sampleLinuxContext
        ProjectRuntime.v2 none).map Prod.fst
      ∧ sampleLinuxContext.os ≠ "windows" := by
  constructor
  · decide
  · decide

/-- C5 (amended): provided the CLI-feed map does not itself carry the
dashboard or Windows file-share names, the two Windows-specific settings
appear in the output iff the OS is windows, and the legacy dashboard
entry (with the storage connection string as its value) appears iff the
runtime is v1. -/
theorem createFunctionAppSettings_conditional_keys
    (cliFeedAppSettings : List NameValuePair) (context : AppSettingsContext)
    (projectRuntime : ProjectRuntime) (projectLanguage : Option String)
    (h1 : "AzureWebJobsDashboard" ∉ cliFeedAppSettings.map Prod.fst)
    (h2 : "WEBSITE_CONTENTAZUREFILECONNECTIONSTRING" ∉ cliFeedAppSettings.map Prod.fst)
    (h3 : "WEBSITE_CONTENTSHARE" ∉ cliFeedAppSettings.map Prod.fst) :
    (("WEBSITE_CONTENTAZUREFILECONNECTIONSTRING" ∈ (createFunctionAppSettings
        cliFeedAppSettings context projectRuntime projectLanguage).map Prod.fst
      ↔ context.os = "windows")
    ∧ ("WEBSITE_CONTENTSHARE" ∈ (createFunctionAppSettings
        cliFeedAppSettings context projectRuntime projectLanguage).map Prod.fst
      ↔ context.os = "windows")
    ∧ (("AzureWebJobsDashboard", context.storageConnectionString) ∈ createFunctionAppSettings
        cliFeedAppSettings context projectRuntime projectLanguage
      ↔ projectRuntime = ProjectRuntime.v1)) := by
  have hpair : ("AzureWebJobsDashboard", context.storageConnectionString) ∉ cliFeedAppSettings :=
    fun hmem => h1 (List.mem_map_of_mem Prod.fst hmem)
  refine ⟨?_, ?_, ?_⟩
  · rw [createFunctionAppSettings_names_eq, builderTailNames_eq]
    by_cases hw : context.os = "windows" <;>
      by_cases hv1 : projectRuntime = ProjectRuntime.v1 <;>
      by_cases hr : jsTruthyString context.runtime = true <;>
      by_cases hp : context.os ≠ "linux" ∧
        ¬(projectLanguage = some "C#Script" ∧ projectRuntime = ProjectRuntime.v1) <;>
      simp_all
  · rw [createFunctionAppSettings_names_eq, builderTailNames_eq]
    by_cases hw : context.os = "windows" <;>
      by_cases hv1 : projectRuntime = ProjectRuntime.v1 <;>
      by_cases hr : jsTruthyString context.runtime = true <;>
      by_cases hp : context.os ≠ "linux" ∧
        ¬(projectLanguage = some "C#Script" ∧ projectRuntime = ProjectRuntime.v1) <;>
      simp_all
  · unfold createFunctionAppSettings
    by_cases hw : context.os = "windows" <;>
      by_cases hv1 : projectRuntime = ProjectRuntime.v1 <;>
      by_cases hr : jsTruthyString context.runtime = true <;>
      by_cases hp : context.os ≠ "linux" ∧
        ¬(projectLanguage = some "C#Script" ∧ projectRuntime = ProjectRuntime.v1) <;>
      simp_all

/-- Witness for the amended C5 theorem at a concrete feed and context. -/
theorem createFunctionAppSettings_conditional_keys_witness :
    ("WEBSITE_CONTENTSHARE" ∈ (createFunctionAppSettings
        [("FUNCTIONS_EXTENSION_VERSION", "~2")] sampleWindowsContext
        ProjectRuntime.v2 none).map Prod.fst
      ↔ sampleWindowsContext.os = "windows") :=
  (createFunctionAppSettings_conditional_keys [("FUNCTIONS_EXTENSION_VERSION", "~2")]
    sampleWindowsContext ProjectRuntime.v2 none
    (by decide) (by decide) (by decide)).2.1

/-- C6: the run-from-package flag is appended iff the OS is not linux and
the language/runtime pair is not (legacy C#-script, v1); in particular
for a non-linux OS that pair is the only excluded combination. Stated
for feeds that do not themselves carry the flag name. -/
theorem createFunctionAppSettings_runFromPackage
    (cliFeedAppSettings : List NameValuePair) (context : AppSettingsContext)
    (projectRuntime : ProjectRuntime) (projectLanguage : Option String)
    (h : "WEBSITE_RUN_FROM_PACKAGE" ∉ cliFeedAppSettings.map Prod.fst) :
    ((("WEBSITE_RUN_FROM_PACKAGE", "1") ∈ createFunctionAppSettings
        cliFeedAppSettings context projectRuntime projectLanguage
      ↔ (context.os ≠ "linux" ∧
          ¬(projectLanguage = some "C#Script" ∧ projectRuntime = ProjectRuntime.v1)))
    ∧ (context.os ≠ "linux" →
        ((("WEBSITE_RUN_FROM_PACKAGE", "1") ∉ createFunctionAppSettings
            cliFeedAppSettings context projectRuntime projectLanguage)
          ↔ (projectRuntime = ProjectRuntime.v1 ∧ projectLanguage = some "C#Script")))) := by
  have hpair : ("WEBSITE_RUN_FROM_PACKAGE", "1") ∉ cliFeedAppSettings :=
    fun hmem => h (List.mem_map_of_mem Prod.fst hmem)
  have hmain : ("WEBSITE_RUN_FROM_PACKAGE", "1") ∈ createFunctionAppSettings
      cliFeedAppSettings context projectRuntime projectLanguage
    ↔ (context.os ≠ "linux" ∧
        ¬(projectLanguage = some "C#Script" ∧ projectRuntime = ProjectRuntime.v1)) := by
    unfold createFunctionAppSettings
    by_cases hw : context.os = "windows" <;>
      by_cases hv1 : projectRuntime = ProjectRuntime.v1 <;>
      by_cases hr : jsTruthyString context.runtime = true <;>
      by_cases hp : context.os ≠ "linux" ∧
        ¬(projectLanguage = some "C#Script" ∧ projectRuntime = ProjectRuntime.v1) <;>
      simp_all
  refine ⟨hmain, fun hos => ?_⟩
  rw [hmain]
  tauto

/-- Witness for the C6 theorem at a concrete feed and context. -/
theorem createFunctionAppSettings_runFromPackage_witness :
    ("WEBSITE_RUN_FROM_PACKAGE", "1") ∈ createFunctionAppSettings
        [("FUNCTIONS_EXTENSION_VERSION", "~2")] sampleWindowsContext
        ProjectRuntime.v2 none
      ↔ (sampleWindowsContext.os ≠ "linux" ∧
          ¬((none : Option String) = some "C#Script" ∧ ProjectRuntime.v2 = ProjectRuntime.v1)) :=
  (createFunctionAppSettings_runFromPackage [("FUNCTIONS_EXTENSION_VERSION", "~2")]
    sampleWindowsContext ProjectRuntime.v2 none (by decide)).1

/-! ## Template Selection Step (`FunctionListStep`, `sortTemplates`) -/

/-- A function template as consumed by the wizard
(`IFunctionTemplate`): id, display name, trigger flags and the
user-configurable settings (represented by their names). -/
structure IFunctionTemplate where
  id : String
  name : String
  isHttpTrigger : Bool
  isTimerTrigger : Bool
  userPromptedSettings : List String
deriving DecidableEq, Repr

/-- The three template-filter tiers (`TemplateFilter` from `constants.ts`). -/
inductive TemplateFilter
| verified
| core
| all
deriving DecidableEq, Repr

/-- Matching the literal pattern `httptrigger` case-insensitively at the
head of the character list: returns the remaining characters on success. -/
def stripHttpTriggerCI : List Char → List Char → Option (List Char)
| [], cs => some cs
| _ :: _, [] => none
| p :: ps, c :: cs => if c.toLower = p then stripHttpTriggerCI ps cs else none

/-- Does the JS regular expression `httptrigger($|[^a-z])` (with the `i`
flag) match starting exactly at the head of the list? Under the
ignore-case flag the negated class `[^a-z]` accepts precisely
characters that are not ASCII letters of either case. -/
def httpTriggerMatchHere (cs : List Char) : Bool :=
  match stripHttpTriggerCI "httptrigger".toList cs with
  | some [] => true
  | some (c :: _) => !c.isAlpha
  | none => false

/-- The JS `regExp.test` for `/httptrigger($|[^a-z])/i`: the pattern may
match at any position of the id. -/
def httpTriggerRegexMatches : List Char → Bool
| [] => false
| c :: cs => httpTriggerMatchHere (c :: cs) || httpTriggerRegexMatches cs

/-- Lexicographic three-way comparison of character lists, the usual
alphabetical order. -/
def lexCompareChars : List Char → List Char → Int
| [], [] => 0
| [], _ :: _ => -1
| _ :: _, [] => 1
| a :: as, b :: bs =>
  if a < b then -1 else if b < a then 1 else lexCompareChars as bs

/-- Modelled from the spec: `String.prototype.localeCompare` (an external
JavaScript built-in) stands for case-insensitive alphabetical comparison
of the display names, returning a negative, zero or positive number. -/
def localeCompare (a b : String) : Int :=
  lexCompareChars (a.toList.map Char.toLower) (b.toList.map Char.toLower)

/-- Shallow embedding of `sortTemplates` (FunctionListStep file, lines
250-261): under the verified filter an id matching the HTTP-trigger
regular expression is ranked first (the first argument checked first),
otherwise the comparator falls through to name comparison. -/
def sortTemplates (a b : IFunctionTemplate) (templateFilter : TemplateFilter) : Int :=
  if templateFilter = TemplateFilter.verified then
    if httpTriggerRegexMatches a.id.toList then -1
    else if httpTriggerRegexMatches b.id.toList then 1
    else localeCompare a.name b.name
  else localeCompare a.name b.name

/-- A template whose id matches the pattern, with a display name late in
the alphabet. -/
def httpTemplateZ : IFunctionTemplate :=
  { id := "HttpTrigger2", name := "Zeta HTTP trigger", isHttpTrigger := true,
    isTimerTrigger := false, userPromptedSettings := [] }

/-- A second template whose id also matches the pattern, with a display
name early in the alphabet. -/
def httpTemplateA : IFunctionTemplate :=
  { id := "HttpTrigger", name := "Alpha HTTP trigger", isHttpTrigger := true,
    isTimerTrigger := false, userPromptedSettings := [] }

/-- C7 counterexample: when both ids match the HTTP-trigger pattern under
the verified filter, the comparator returns -1 rather than the
case-insensitive alphabetical comparison of the names, so the clause
"in all other cases the comparison is alphabetical by display name"
fails. -/
theorem sortTemplates_counterexample :
    httpTriggerRegexMatches httpTemplateZ.id.toList = true
    ∧ httpTriggerRegexMatches httpTemplateA.id.toList = true
    ∧ sortTemplates httpTemplateZ httpTemplateA TemplateFilter.verified = -1
    ∧ localeCompare httpTemplateZ.name httpTemplateA.name = 1
    ∧ sortTemplates httpTemplateZ httpTemplateA TemplateFilter.verified
        ≠ localeCompare httpTemplateZ.name httpTemplateA.name := by
  refine ⟨by decide, by decide, by decide, by decide, by decide⟩

/-- C7 (amended): under the verified filter a first argument whose id
matches the HTTP-trigger pattern is ranked before the second argument
(whether or not the second also matches); a non-matching first argument
is ranked after a matching second; the comparison is alphabetical by
display name exactly when the filter is not verified or neither id
matches the pattern. -/
theorem sortTemplates_spec (a b : IFunctionTemplate) (templateFilter : TemplateFilter) :
    ((templateFilter = TemplateFilter.verified →
        httpTriggerRegexMatches a.id.toList = true →
        sortTemplates a b templateFilter = -1)
    ∧ (templateFilter = TemplateFilter.verified →
        httpTriggerRegexMatches a.id.toList = false →
        httpTriggerRegexMatches b.id.toList = true →
        sortTemplates a b templateFilter = 1)
    ∧ (templateFilter ≠ TemplateFilter.verified ∨
        (httpTriggerRegexMatches a.id.toList = false ∧
         httpTriggerRegexMatches b.id.toList = false) →
        sortTemplates a b templateFilter = localeCompare a.name b.name)) := by
  unfold sortTemplates
  refine ⟨?_, ?_, ?_⟩
  · intro hf ha
    simp only [String.toList] at ha
    simp [hf, ha]
  · intro hf ha hb
    simp only [String.toList] at ha hb
    simp [hf, ha, hb]
  · rintro (hf | ⟨ha, hb⟩)
    · simp [hf]
    · simp only [String.toList] at ha hb
      split_ifs <;> simp_all

/-- Witness for the amended C7 theorem: a matching id is ranked before a
non-matching one under the verified filter (the example pair of the
spec, with ids drawn so that the first one actually matches the
pattern). -/
theorem sortTemplates_spec_witness :
    sortTemplates httpTemplateA
      { id := "TimerTrigger", name := "Timer trigger", isHttpTrigger := false,
        isTimerTrigger := true, userPromptedSettings := [] }
      TemplateFilter.verified = -1 :=
  (sortTemplates_spec httpTemplateA
      { id := "TimerTrigger", name := "Timer trigger", isHttpTrigger := false,
        isTimerTrigger := true, userPromptedSettings := [] }
      TemplateFilter.verified).1 rfl (by decide)

/-! ## Function Creation Orchestrator (`FunctionListStep.getSubWizard`) -/

/-- The project languages (`ProjectLanguage` enum from `constants.ts`,
modelled with the members this revision of the extension knows). -/
inductive ProjectLanguage
| CSharp
| CSharpScript
| FSharp
| FSharpScript
| Java
| JavaScript
| PowerShell
| Python
| TypeScript
deriving DecidableEq, Repr

/-- The prompt steps `getSubWizard` can queue, identified by their class.
`bindingSetting` stands for the steps added by `addBindingSettingSteps`
(one per user-prompted template setting). -/
inductive WizardPromptStep
| javaPackageName
| javaFunctionName
| dotnetFunctionName
| dotnetNamespace
| scriptFunctionName
| bindingSetting (settingName : String)
| azureWebJobsStoragePick
deriving DecidableEq, Repr

/-- The execute steps `getSubWizard` can queue, identified by their class. -/
inductive WizardExecuteStep
| javaFunctionCreate
| dotnetFunctionCreate
| typeScriptFunctionCreate
| scriptFunctionCreate
| azureWebJobsStorageSave
deriving DecidableEq, Repr

/-- The sub-wizard options `getSubWizard` returns
(`IWizardOptions`: prompt steps, execute steps, title). -/
structure WizardOptions where
  promptSteps : List WizardPromptStep
  executeSteps : List WizardExecuteStep
  title : String
deriving DecidableEq, Repr

/-- The fields of `IFunctionWizardContext` that `getSubWizard` reads. -/
structure FunctionWizardContext where
  language : ProjectLanguage
  functionTemplate : Option IFunctionTemplate
deriving DecidableEq, Repr

namespace FunctionListStep

/-- Shallow embedding of `FunctionListStep.getSubWizard` (FunctionListStep
file, lines 115-166). `hasAzureWebJobsStorage` is the truthiness of
`getAzureWebJobsStorage(wizardContext.projectPath)`, an external read of
the local settings file. -/
def getSubWizard (wizardContext : FunctionWizardContext)
    (hasAzureWebJobsStorage : Bool) : Option WizardOptions :=
  match wizardContext.functionTemplate with
  | none => none
  | some template =>
    let namePromptSteps : List WizardPromptStep :=
      match wizardContext.language with
      | ProjectLanguage.Java => [.javaPackageName, .javaFunctionName]
      | ProjectLanguage.CSharp | ProjectLanguage.FSharp =>
          [.dotnetFunctionName, .dotnetNamespace]
      | _ => [.scriptFunctionName]
    let promptSteps : List WizardPromptStep :=
      namePromptSteps ++ template.userPromptedSettings.map WizardPromptStep.bindingSetting
    let executeSteps : List WizardExecuteStep :=
      [match wizardContext.language with
       | ProjectLanguage.Java => .javaFunctionCreate
       | ProjectLanguage.CSharp | ProjectLanguage.FSharp => .dotnetFunctionCreate
       | ProjectLanguage.TypeScript => .typeScriptFunctionCreate
       | _ => .scriptFunctionCreate]
    if !template.isHttpTrigger && !hasAzureWebJobsStorage then
      some { promptSteps := promptSteps ++ [.azureWebJobsStoragePick],
             executeSteps := executeSteps ++ [.azureWebJobsStorageSave],
             title := "Create new " ++ template.name }
    else
      some { promptSteps := promptSteps, executeSteps := executeSteps,
             title := "Create new " ++ template.name }

end FunctionListStep

/-- C1: `getSubWizard` returns none exactly when no template is selected;
with a selected template the queued steps follow the fixed language
mapping: Java gets the package-name and function-name prompt steps and
the Java create step, C# and F# get the function-name and namespace
prompt steps and the .NET create step, TypeScript gets the dedicated
TypeScript create step, and every other language gets the generic script
name prompt step and (except TypeScript) the generic script create
step. -/
theorem getSubWizard_language_mapping :
    (∀ (ctx : FunctionWizardContext) (hasStorage : Bool),
      FunctionListStep.getSubWizard ctx hasStorage = none ↔ ctx.functionTemplate = none)
    ∧ (∀ (ctx : FunctionWizardContext) (hasStorage : Bool)
        (t : IFunctionTemplate) (w : WizardOptions),
        ctx.functionTemplate = some t →
        FunctionListStep.getSubWizard ctx hasStorage = some w →
        ((ctx.language = ProjectLanguage.Java →
            w.promptSteps.take 2 = [.javaPackageName, .javaFunctionName]
            ∧ w.executeSteps.head? = some .javaFunctionCreate)
        ∧ (ctx.language = ProjectLanguage.CSharp ∨ ctx.language = ProjectLanguage.FSharp →
            w.promptSteps.take 2 = [.dotnetFunctionName, .dotnetNamespace]
            ∧ w.executeSteps.head? = some .dotnetFunctionCreate)
        ∧ (ctx.language = ProjectLanguage.TypeScript →
            w.promptSteps.head? = some .scriptFunctionName
            ∧ w.executeSteps.head? = some .typeScriptFunctionCreate)
        ∧ (ctx.language ≠ ProjectLanguage.Java ∧ ctx.language ≠ ProjectLanguage.CSharp
            ∧ ctx.language ≠ ProjectLanguage.FSharp →
            w.promptSteps.head? = some .scriptFunctionName)
        ∧ (ctx.language ≠ ProjectLanguage.Java ∧ ctx.language ≠ ProjectLanguage.CSharp
            ∧ ctx.language ≠ ProjectLanguage.FSharp ∧ ctx.language ≠ ProjectLanguage.TypeScript →
            w.executeSteps.head? = some .scriptFunctionCreate))) := by
  constructor
  · intro ctx hasStorage
    unfold FunctionListStep.getSubWizard
    cases ctx.functionTemplate <;> simp <;> split_ifs <;> simp
  · intro ctx hasStorage t w ht hw
    unfold FunctionListStep.getSubWizard at hw
    rw [ht] at hw
    simp only at hw
    cases hl : ctx.language <;>
      rw [hl] at hw <;>
      split_ifs at hw <;>
      simp only [Option.some.injEq] at hw <;>
      subst hw <;>
      simp_all

/-- Witness for the C1 theorem at a concrete Java context carrying a
selected template. -/
theorem getSubWizard_language_mapping_witness :
    FunctionListStep.getSubWizard
        { language := ProjectLanguage.Java, functionTemplate := some httpTemplateA } false
      ≠ none
    ∧ (({ promptSteps := [.javaPackageName, .javaFunctionName],
          executeSteps := [.javaFunctionCreate],
          title := "Create new " ++ httpTemplateA.name } : WizardOptions).promptSteps.take 2
          = [.javaPackageName, .javaFunctionName]
        ∧ ({ promptSteps := [.javaPackageName, .javaFunctionName],
             executeSteps := [.javaFunctionCreate],
             title := "Create new " ++ httpTemplateA.name } : WizardOptions).executeSteps.head?
          = some .javaFunctionCreate) := by
  constructor
  · intro hcon
    have h1 := (getSubWizard_language_mapping.1
      { language := ProjectLanguage.Java, functionTemplate := some httpTemplateA } false).mp hcon
    simp at h1
  · exact (getSubWizard_language_mapping.2
      { language := ProjectLanguage.Java, functionTemplate := some httpTemplateA } false
      httpTemplateA
      { promptSteps := [.javaPackageName, .javaFunctionName],
        executeSteps := [.javaFunctionCreate],
        title := "Create new " ++ httpTemplateA.name }
      rfl (by decide)).1 rfl

/-! ## Create-step execute and the Cached-Function record
(`FunctionCreateStepBase.execute` / `runPostFunctionCreateStepsFromCache`) -/

/-- The Cached-Function record (`ICachedFunction`). -/
structure ICachedFunction where
  projectPath : String
  newFilePath : String
  isHttpTrigger : Bool
deriving DecidableEq, Repr

/-- The externally visible effects of the tail of
`FunctionCreateStepBase.execute` on the durable store and the
post-creation step, in program order. -/
inductive CacheAction
| updateCache (value : Option ICachedFunction)
| scheduleClearTimeout (delayMs : Nat)
| runPostCreateSteps (func : ICachedFunction)
deriving DecidableEq, Repr

/-- The fields of the wizard context that the tail of
`FunctionCreateStepBase.execute` reads. -/
structure FunctionCreateContext where
  projectPath : String
  openBehavior : Option String
  functionTemplate : IFunctionTemplate
deriving DecidableEq, Repr

namespace FunctionCreateStepBase

/-- The Cached-Function record built at FunctionCreateStepBase line 61. -/
def cachedFuncOf (wizardContext : FunctionCreateContext) (newFilePath : String) :
    ICachedFunction :=
  { projectPath := wizardContext.projectPath,
    newFilePath := newFilePath,
    isHttpTrigger := wizardContext.functionTemplate.isHttpTrigger }

/-- Shallow embedding of the cache-related tail of
`FunctionCreateStepBase.execute` (lines 61-71): when the open behavior
is truthy the record is stored and a 5-second clearing timeout is
scheduled; the post-creation step is then invoked unconditionally.
`newFilePath` is the value returned by the language-specific
`executeCore`. -/
def executeCacheActions (wizardContext : FunctionCreateContext)
    (newFilePath : String) : List CacheAction :=
  (if jsTruthyString wizardContext.openBehavior then
    [CacheAction.updateCache (some (cachedFuncOf wizardContext newFilePath)),
     CacheAction.scheduleClearTimeout (5 * 1000)]
   else [])
  ++ [CacheAction.runPostCreateSteps (cachedFuncOf wizardContext newFilePath)]

/-- Shallow embedding of `runPostFunctionCreateStepsFromCache` (lines
28-37): read the durable store; when a record is present, run the
post-creation steps (which may throw) and clear the store in a finally
block. Returns the new store contents and whether the post-creation
steps ran. -/
def runPostFunctionCreateStepsFromCache (stored : Option ICachedFunction)
    (postStepThrows : Bool) : Option ICachedFunction × Bool :=
  match stored with
  | some _ => (none, !postStepThrows)
  | none => (none, false)

end FunctionCreateStepBase

/-- A concrete wizard context whose open behavior is set, used by the C2
counterexample and the C3 witness. -/
def sampleOpenContext : FunctionCreateContext :=
  { projectPath := "proj", openBehavior := some "AlreadyOpen",
    functionTemplate := httpTemplateA }

/-- C2 counterexample: with a non-empty open behavior the record is
stored in durable storage AND the post-creation step still runs
immediately (FunctionCreateStepBase line 70 is unconditional), so the
two outcomes are not mutually exclusive. -/
theorem execute_store_and_run_counterexample :
    CacheAction.updateCache (some (FunctionCreateStepBase.cachedFuncOf sampleOpenContext "f.cs"))
        ∈ FunctionCreateStepBase.executeCacheActions sampleOpenContext "f.cs"
    ∧ CacheAction.runPostCreateSteps (FunctionCreateStepBase.cachedFuncOf sampleOpenContext "f.cs")
        ∈ FunctionCreateStepBase.executeCacheActions sampleOpenContext "f.cs"
    ∧ jsTruthyString sampleOpenContext.openBehavior = true := by
  refine ⟨by decide, by decide, by decide⟩

/-- C2 (amended): the record is stored in durable storage exactly when
the open behavior is non-empty, and the post-creation step is run
immediately in every case, whether or not the record was stored. -/
theorem execute_cache_effects (wizardContext : FunctionCreateContext)
    (newFilePath : String) :
    ((CacheAction.updateCache (some (FunctionCreateStepBase.cachedFuncOf wizardContext newFilePath))
        ∈ FunctionCreateStepBase.executeCacheActions wizardContext newFilePath
      ↔ jsTruthyString wizardContext.openBehavior = true)
    ∧ CacheAction.runPostCreateSteps (FunctionCreateStepBase.cachedFuncOf wizardContext newFilePath)
        ∈ FunctionCreateStepBase.executeCacheActions wizardContext newFilePath
    ∧ (CacheAction.scheduleClearTimeout (5 * 1000)
        ∈ FunctionCreateStepBase.executeCacheActions wizardContext newFilePath
      ↔ jsTruthyString wizardContext.openBehavior = true)) := by
  unfold FunctionCreateStepBase.executeCacheActions
  split_ifs with h <;> simp_all

/-- The events that can touch the durable cache entry after it was
stored: the scheduled timeout firing, or the cache-recovery consumer
running on the next activation (whose post step may throw). -/
inductive CacheEvent
| timerFire
| consumeFromCache (postStepThrows : Bool)
deriving DecidableEq, Repr

/-- How each event transforms the durable cache entry: the timeout
handler writes `undefined`, and the consumer reads then clears in a
finally block (so it clears even when the post step throws). -/
def cacheEventStep (stored : Option ICachedFunction) :
    CacheEvent → Option ICachedFunction
| CacheEvent.timerFire => none
| CacheEvent.consumeFromCache postStepThrows =>
    (FunctionCreateStepBase.runPostFunctionCreateStepsFromCache stored postStepThrows).1

theorem cacheEventStep_clears (stored : Option ICachedFunction) (e : CacheEvent) :
    cacheEventStep stored e = none := by
  cases e with
  | timerFire => rfl
  | consumeFromCache b => cases stored <;> rfl

theorem foldl_cacheEventStep_none (events : List CacheEvent)
    (stored : Option ICachedFunction) (hne : events ≠ []) :
    events.foldl cacheEventStep stored = none := by
  induction events generalizing stored with
  | nil => exact absurd rfl hne
  | cons e rest ih =>
    cases rest with
    | nil => simpa using cacheEventStep_clears stored e
    | cons e2 rest2 => simpa using ih (cacheEventStep stored e) (by simp)

/-- C3: whenever the create step stores the Cached-Function record it
also schedules the 5000 ms clearing timeout in the same run; the
consumer clears the record on read even when the post-creation action
throws; and any sequence of cache events that contains the timeout
firing (which happens 5 seconds after the store, since the timeout is
never cancelled) or a consumer read leaves the durable store empty  -
so a stored record never persists indefinitely. -/
theorem cachedFunction_cleared
    (wizardContext : FunctionCreateContext) (newFilePath : String)
    (stored : Option ICachedFunction) (postStepThrows : Bool)
    (events : List CacheEvent) :
    ((CacheAction.updateCache (some (FunctionCreateStepBase.cachedFuncOf wizardContext newFilePath))
        ∈ FunctionCreateStepBase.executeCacheActions wizardContext newFilePath →
      CacheAction.scheduleClearTimeout (5 * 1000)
        ∈ FunctionCreateStepBase.executeCacheActions wizardContext newFilePath)
    ∧ (FunctionCreateStepBase.runPostFunctionCreateStepsFromCache stored postStepThrows).1 = none
    ∧ (CacheEvent.timerFire ∈ events ∨ (∃ b, CacheEvent.consumeFromCache b ∈ events) →
        events.foldl cacheEventStep stored = none)) := by
  refine ⟨?_, ?_, ?_⟩
  · intro hmem
    unfold FunctionCreateStepBase.executeCacheActions at hmem ⊢
    split_ifs at hmem ⊢ with h <;> simp_all
  · cases stored <;> rfl
  · intro hne
    refine foldl_cacheEventStep_none events stored ?_
    rcases hne with h | ⟨b, h⟩ <;> exact List.ne_nil_of_mem h

/-- Witness for the C3 theorem: a concrete stored record, a consumer
whose post step throws, and an event list containing the timeout
firing. -/
theorem cachedFunction_cleared_witness :
    (CacheAction.updateCache (some (FunctionCreateStepBase.cachedFuncOf sampleOpenContext "f.cs"))
        ∈ FunctionCreateStepBase.executeCacheActions sampleOpenContext "f.cs" →
      CacheAction.scheduleClearTimeout (5 * 1000)
        ∈ FunctionCreateStepBase.executeCacheActions sampleOpenContext "f.cs")
    ∧ (FunctionCreateStepBase.runPostFunctionCreateStepsFromCache
        (some (FunctionCreateStepBase.cachedFuncOf sampleOpenContext "f.cs")) true).1 = none
    ∧ [CacheEvent.timerFire].foldl cacheEventStep
        (some (FunctionCreateStepBase.cachedFuncOf sampleOpenContext "f.cs")) = none := by
  have h := cachedFunction_cleared sampleOpenContext "f.cs"
    (some (FunctionCreateStepBase.cachedFuncOf sampleOpenContext "f.cs")) true
    [CacheEvent.timerFire]
  exact ⟨h.1, h.2.1, h.2.2 (Or.inl (by decide))⟩

/-! ## Extension-bundle check (`FunctionCreateStepBase.verifyExtensionBundle`) -/

/-- The extension-bundle declaration written into the host-configuration
file (`IBundleMetadata`: id and version range). -/
structure IBundleMetadata where
  id : String
  version : String
deriving DecidableEq, Repr

/-- The host-configuration file contents as read by
`verifyExtensionBundle` (`IHostJsonV2`): the version field stands for
the rest of the JSON document, which the check must leave unchanged. -/
structure IHostJsonV2 where
  version : Option String
  extensionBundle : Option IBundleMetadata
deriving DecidableEq, Repr

/-- The fixed default bundle id injected by `verifyExtensionBundle`. -/
def defaultBundleId : String := "Microsoft.Azure.Functions.ExtensionBundle"

/-- The fixed default bundle version range injected by
`verifyExtensionBundle`. -/
def defaultBundleVersion : String := "[1.*, 2.0.0)"

namespace FunctionCreateStepBase

/-- Shallow embedding of `FunctionCreateStepBase.verifyExtensionBundle`
(lines 73-88) on a successfully parsed host-configuration file: when the
extensionBundle field is missing it is set to the fixed default and the
file is rewritten; otherwise nothing happens. Returns the resulting
file contents and whether a write was performed. -/
def verifyExtensionBundle (hostJson : IHostJsonV2) : IHostJsonV2 × Bool :=
  match hostJson.extensionBundle with
  | none =>
      ({ hostJson with
          extensionBundle := some { id := defaultBundleId, version := defaultBundleVersion } },
        true)
  | some _ => (hostJson, false)

end FunctionCreateStepBase

/-- C8: starting from a host-configuration file missing the
extensionBundle field, one run of the check writes exactly the fixed
default id and version range (leaving the rest of the file unchanged),
and running the check again on the patched file changes nothing and
performs no write. -/
theorem verifyExtensionBundle_idempotent (hostJson : IHostJsonV2)
    (hmissing : hostJson.extensionBundle = none) :
    ((FunctionCreateStepBase.verifyExtensionBundle hostJson).1.extensionBundle
        = some { id := defaultBundleId, version := defaultBundleVersion }
    ∧ (FunctionCreateStepBase.verifyExtensionBundle hostJson).1.version = hostJson.version
    ∧ (FunctionCreateStepBase.verifyExtensionBundle hostJson).2 = true
    ∧ FunctionCreateStepBase.verifyExtensionBundle
        (FunctionCreateStepBase.verifyExtensionBundle hostJson).1
      = ((FunctionCreateStepBase.verifyExtensionBundle hostJson).1, false)) := by
  unfold FunctionCreateStepBase.verifyExtensionBundle
  rw [hmissing]
  simp

/-- Witness for the C8 theorem at a concrete host-configuration file. -/
theorem verifyExtensionBundle_idempotent_witness :
    ((FunctionCreateStepBase.verifyExtensionBundle
        { version := some "2.0", extensionBundle := none }).1.extensionBundle
      = some { id := defaultBundleId, version := defaultBundleVersion })
    ∧ (FunctionCreateStepBase.verifyExtensionBundle
        (FunctionCreateStepBase.verifyExtensionBundle
          { version := some "2.0", extensionBundle := none }).1
      = ((FunctionCreateStepBase.verifyExtensionBundle
          { version := some "2.0", extensionBundle := none }).1, false)) :=
  ⟨(verifyExtensionBundle_idempotent { version := some "2.0", extensionBundle := none } rfl).1,
   (verifyExtensionBundle_idempotent { version := some "2.0", extensionBundle := none } rfl).2.2.2⟩

/-! ## Resource Provisioning Orchestrator error path
(`FunctionAppProvider.createChildImpl`, lines 149-164) -/

/-- An error surfaced by the wizard execute phase, with the flag
`parseError` uses to recognise a user cancellation. -/
structure CreateError where
  isUserCancelledError : Bool
  message : String
deriving DecidableEq, Repr

/-- The outcome of the execute phase of `createChildImpl`: whether the
advanced-creation suggestion was shown, whether the global
advancedCreation setting was persisted, and the propagated result. -/
structure CreateChildOutcome where
  offeredAdvancedSuggestion : Bool
  persistedAdvancedSetting : Bool
  result : Except CreateError String
deriving Repr

namespace FunctionAppProvider

/-- Shallow embedding of the try/catch around `wizard.execute` in
`FunctionAppProvider.createChildImpl` (lines 149-164): on a failure that
is not a user cancellation while advanced creation is off, a warning
with a turn-on button is shown (persisting the global setting only when
the user picks the button), and the original error is rethrown in every
failure case. `userAcceptsSuggestion` is the user response to the
dismissible message. -/
def createChildExecutePhase (advancedCreation : Bool)
    (executeResult : Except CreateError String)
    (userAcceptsSuggestion : Bool) : CreateChildOutcome :=
  match executeResult with
  | Except.ok site =>
      { offeredAdvancedSuggestion := false, persistedAdvancedSetting := false,
        result := Except.ok site }
  | Except.error e =>
      if !e.isUserCancelledError && !advancedCreation then
        { offeredAdvancedSuggestion := true,
          persistedAdvancedSetting := userAcceptsSuggestion,
          result := Except.error e }
      else
        { offeredAdvancedSuggestion := false, persistedAdvancedSetting := false,
          result := Except.error e }

end FunctionAppProvider

/-- C9: on an execute failure the advanced-creation suggestion is offered
exactly when the error is not a user cancellation and advanced creation
is off; the setting is persisted exactly when the suggestion was offered
and accepted; and the original error is rethrown unchanged in every
failure case (and on success nothing is offered). -/
theorem createChildExecutePhase_spec (advancedCreation : Bool)
    (e : CreateError) (userAcceptsSuggestion : Bool) :
    ((FunctionAppProvider.createChildExecutePhase advancedCreation
        (Except.error e) userAcceptsSuggestion).offeredAdvancedSuggestion
      = (!e.isUserCancelledError && !advancedCreation)
    ∧ (FunctionAppProvider.createChildExecutePhase advancedCreation
        (Except.error e) userAcceptsSuggestion).persistedAdvancedSetting
      = ((!e.isUserCancelledError && !advancedCreation) && userAcceptsSuggestion)
    ∧ (FunctionAppProvider.createChildExecutePhase advancedCreation
        (Except.error e) userAcceptsSuggestion).result = Except.error e
    ∧ (∀ site : String, FunctionAppProvider.createChildExecutePhase advancedCreation
        (Except.ok site) userAcceptsSuggestion
      = { offeredAdvancedSuggestion := false, persistedAdvancedSetting := false,
          result := Except.ok site })) := by
  unfold FunctionAppProvider.createChildExecutePhase
  cases he : e.isUserCancelledError <;> cases advancedCreation <;>
    cases userAcceptsSuggestion <;> simp_all

/-! ## Upload of local app settings (`uploadAppSettings`) -/

/-- The encryption status of the local settings file on disk. -/
structure LocalSettingsFileState where
  fileEncrypted : Bool
deriving DecidableEq, Repr

/-- The parsed contents of the local settings file
(`ILocalSettingsJson`): the IsEncrypted flag and the optional Values
map. -/
structure ILocalSettingsJson where
  isEncrypted : Bool
  values : Option (List NameValuePair)
deriving DecidableEq, Repr

/-- The failures `uploadAppSettings` can propagate in the modelled
section: the re-read of the decrypted file throwing, the absence of a
Values section, or the remote settings update throwing. -/
inductive UploadError
| rereadFailed
| noSettings
| remoteUpdateFailed
deriving DecidableEq, Repr

/-- Embedding of `decryptLocalSettings`: rewrites the file in decrypted form. -/
def decryptLocalSettings (s : LocalSettingsFileState) : LocalSettingsFileState :=
  { s with fileEncrypted := false }

/-- Embedding of `encryptLocalSettings`: rewrites the file in encrypted form. -/
def encryptLocalSettings (s : LocalSettingsFileState) : LocalSettingsFileState :=
  { s with fileEncrypted := true }

/-- Shallow embedding of the body of `uploadAppSettings` (lines 30-55)
acting on the local settings file: when the settings are marked
encrypted, the file is decrypted, re-read inside a try whose finally
re-encrypts the file, and the upload then proceeds from the re-read
values. `rereadFails` models the re-read throwing and
`remoteUpdateFails` models the settings upload throwing. Returns the
final file state and the propagated outcome. -/
def uploadAppSettings (localSettings : ILocalSettingsJson)
    (file : LocalSettingsFileState) (rereadFails : Bool)
    (remoteUpdateFails : Bool) : LocalSettingsFileState × Except UploadError Unit :=
  let afterRead :
      LocalSettingsFileState × Except UploadError ILocalSettingsJson :=
    if localSettings.isEncrypted then
      let decrypted := decryptLocalSettings file
      let body : Except UploadError ILocalSettingsJson :=
        if rereadFails then Except.error UploadError.rereadFailed
        else Except.ok localSettings
      (encryptLocalSettings decrypted, body)
    else
      (file, Except.ok localSettings)
  match afterRead with
  | (state, Except.error e) => (state, Except.error e)
  | (state, Except.ok reread) =>
    match reread.values with
    | some _ =>
        if remoteUpdateFails then (state, Except.error UploadError.remoteUpdateFailed)
        else (state, Except.ok ())
    | none => (state, Except.error UploadError.noSettings)

/-- C10: when the local settings file is marked encrypted, the file ends
up encrypted again in every outcome - in particular when the re-read of
the decrypted file throws, since the re-encrypt runs in a finally block
and the error still propagates. -/
theorem uploadAppSettings_reencrypts (localSettings : ILocalSettingsJson)
    (file : LocalSettingsFileState) (rereadFails remoteUpdateFails : Bool)
    (henc : localSettings.isEncrypted = true) :
    ((uploadAppSettings localSettings file rereadFails remoteUpdateFails).1.fileEncrypted = true
    ∧ (rereadFails = true →
        (uploadAppSettings localSettings file rereadFails remoteUpdateFails).2
          = Except.error UploadError.rereadFailed)) := by
  unfold uploadAppSettings
  cases hv : localSettings.values <;>
    cases rereadFails <;> cases remoteUpdateFails <;>
    simp_all [decryptLocalSettings, encryptLocalSettings]

/-- Witness for the C10 theorem: an encrypted settings file whose
re-read throws is re-encrypted and the error propagates. -/
theorem uploadAppSettings_reencrypts_witness :
    ((uploadAppSettings { isEncrypted := true, values := some [("k", "v")] }
        { fileEncrypted := true } true false).1.fileEncrypted = true
    ∧ (uploadAppSettings { isEncrypted := true, values := some [("k", "v")] }
        { fileEncrypted := true } true false).2
      = Except.error UploadError.rereadFailed) := by
  have h := uploadAppSettings_reencrypts
    { isEncrypted := true, values := some [("k", "v")] }
    { fileEncrypted := true } true false rfl
  exact ⟨h.1, h.2 rfl⟩
